import Mathlib

/-
Verification of the picam display pipeline (display.cpp / image_frame.h).

The C++ source is shallowly embedded:
- byte buffers are lists of naturals (each element a byte value),
- machine-int arithmetic in the YUYV conversion is exact `Int` arithmetic
  (all intermediate values fit comfortably in 32-bit ints, so no wrap occurs),
- the arithmetic right shift by 8 on a signed int is floor division by 256,
- the imperative writes into the destination buffer are modelled as a list of
  (index, value) pairs applied left to right with `List.set`,
- the float aspect-ratio computations are modelled over `ℚ` (exact arithmetic;
  the spec's invariants are stated "within floating-point tolerance"),
- GPU/window calls are modelled as explicit state (uploaded texture, VBO
  contents, draw-call log, diagnostic log).
-/

namespace Picam

/-- Image dimensions in pixels (image_frame.h, struct ImageSize). -/
structure ImageSize where
  width : Nat
  height : Nat

/-- Frame header (image_frame.h, struct ImageFrame::Header). The timestamp is
an opaque value that plays no role in the display path. -/
structure Header where
  timestamp : Nat
  pitch : Nat
  size : ImageSize
  format : Nat

/-- A single frame: header plus the raw pixel byte buffer
(image_frame.h, struct ImageFrame). -/
structure ImageFrame where
  header : Header
  pixels : List Nat

/-- DRM fourcc value of libcamera::formats::RGB888. -/
def RGB888 : Nat := 0x34324752

/-- DRM fourcc value of libcamera::formats::YUYV. -/
def YUYV : Nat := 0x56595559

/-- Convenience constructor for a frame. -/
def mkFrame (ts pitch w h fmt : Nat) (src : List Nat) : ImageFrame :=
  ⟨⟨ts, pitch, ⟨w, h⟩, fmt⟩, src⟩

/-- std::clamp on ints (lo ≤ hi): max lo (min v hi). -/
def clamp (v lo hi : Int) : Int := max lo (min v hi)

/-- Arithmetic right shift by 8 of a signed machine int: floor division by 256. -/
def asr8 (v : Int) : Int := Int.fdiv v 256

/-- A sequence of imperative byte-buffer writes, applied left to right.
Each pair is (destination index, value). -/
def applyWrites (buf : List Nat) (ws : List (Nat × Nat)) : List Nat :=
  ws.foldl (fun b iv => b.set iv.1 iv.2) buf

/-- std::vector::resize(n): keep the first n elements, value-initialize
(zero) any new elements. -/
def listResize (buf : List Nat) (n : Nat) : List Nat :=
  buf.take n ++ List.replicate (n - buf.length) 0

/-- RGB888 branch, one row (display.cpp line 43):
memcpy(&rgb_data[y*width*3], &src[y*pitch], width*3). -/
def rgbRowCopyWrites (src : List Nat) (pitch width y : Nat) : List (Nat × Nat) :=
  (List.range (width * 3)).map (fun i => (y * (width * 3) + i, src.getD (y * pitch + i) 0))

/-- RGB888 branch, all rows (display.cpp lines 42-44). -/
def rgbWrites (src : List Nat) (pitch width height : Nat) : List (Nat × Nat) :=
  (List.range height).flatMap (fun y => rgbRowCopyWrites src pitch width y)

/-- YUYV branch, one loop iteration of the inner x-loop (display.cpp lines
52-73), with x = 2*p. Reads the 4 consecutive bytes Y0,U,Y1,V at row offset
x*2 and emits the six destination writes for the pixel pair. -/
def yuyvPairWrites (src : List Nat) (pitch width y p : Nat) : List (Nat × Nat) :=
  let x := 2 * p
  let rowOff := y * pitch
  let y0 : Int := src.getD (rowOff + x * 2) 0
  let u : Int := src.getD (rowOff + x * 2 + 1) 0
  let y1 : Int := src.getD (rowOff + x * 2 + 2) 0
  let v : Int := src.getD (rowOff + x * 2 + 3) 0
  let c0 : Int := y0 - 16
  let c1 : Int := y1 - 16
  let d : Int := u - 128
  let e : Int := v - 128
  let base := y * (width * 3)
  [ (base + x * 3, (clamp (asr8 (298 * c0 + 409 * e + 128)) 0 255).toNat),
    (base + x * 3 + 1, (clamp (asr8 (298 * c0 - 100 * d - 208 * e + 128)) 0 255).toNat),
    (base + x * 3 + 2, (clamp (asr8 (298 * c0 + 516 * d + 128)) 0 255).toNat),
    (base + (x + 1) * 3, (clamp (asr8 (298 * c1 + 409 * e + 128)) 0 255).toNat),
    (base + (x + 1) * 3 + 1, (clamp (asr8 (298 * c1 - 100 * d - 208 * e + 128)) 0 255).toNat),
    (base + (x + 1) * 3 + 2, (clamp (asr8 (298 * c1 + 516 * d + 128)) 0 255).toNat) ]

/-- YUYV branch, all rows (display.cpp lines 48-74). The inner loop
`for (x = 0; x < width; x += 2)` runs (width+1)/2 times, with x = 2*p. -/
def yuyvWrites (src : List Nat) (pitch width height : Nat) : List (Nat × Nat) :=
  (List.range height).flatMap (fun y =>
    (List.range ((width + 1) / 2)).flatMap (fun p => yuyvPairWrites src pitch width y p))

/-- Unsupported-format branch (display.cpp lines 79-83): fill with magenta.
The loop `for (i = 0; i < size; i += 3)` runs (size+2)/3 times, with i = 3*k. -/
def magentaWrites (size : Nat) : List (Nat × Nat) :=
  (List.range ((size + 2) / 3)).flatMap (fun k =>
    [(3 * k, 255), (3 * k + 1, 0), (3 * k + 2, 255)])

/-- convertToRGB (display.cpp lines 32-85): resize the destination to
width*height*3 and dispatch on the format tag. -/
def convertToRGB (frame : ImageFrame) (rgb_data : List Nat) : List Nat :=
  let width := frame.header.size.width
  let height := frame.header.size.height
  let pitch := frame.header.pitch
  let src := frame.pixels
  let resized := listResize rgb_data (width * height * 3)
  let format := frame.header.format
  if format = RGB888 then
    applyWrites resized (rgbWrites src pitch width height)
  else if format = YUYV then
    applyWrites resized (yuyvWrites src pitch width height)
  else
    applyWrites resized (magentaWrites resized.length)

/-- The warning diagnostics emitted by convertToRGB (display.cpp line 77):
only the unsupported-format branch prints a warning, and the message carries
the unrecognized format tag. -/
def convertDiagnostics (frame : ImageFrame) : List Nat :=
  if frame.header.format = RGB888 then []
  else if frame.header.format = YUYV then []
  else [frame.header.format]

/-- The source offsets read by the YUYV branch (display.cpp lines 53-56):
row[x*2], row[x*2+1], row[x*2+2], row[x*2+3] with row = &src[y*pitch], x = 2*p. -/
def yuyvReadOffsets (pitch width height : Nat) : List Nat :=
  (List.range height).flatMap (fun y =>
    (List.range ((width + 1) / 2)).flatMap (fun p =>
      [y * pitch + 2 * p * 2, y * pitch + 2 * p * 2 + 1,
       y * pitch + 2 * p * 2 + 2, y * pitch + 2 * p * 2 + 3]))

/- ## Generic lemmas about buffer writes -/

theorem length_applyWrites (ws : List (Nat × Nat)) (buf : List Nat) :
    (applyWrites buf ws).length = buf.length := by
  induction ws generalizing buf with
  | nil => rfl
  | cons hd tl ih => simpa [applyWrites] using (ih (buf.set hd.1 hd.2)).trans (by simp)

theorem length_listResize (buf : List Nat) (n : Nat) :
    (listResize buf n).length = n := by
  simp [listResize]
  omega

theorem getD_set_ne (l : List Nat) (i j v d : Nat) (h : i ≠ j) :
    (l.set i v).getD j d = l.getD j d := by
  simp [List.getD_eq_getElem?_getD, List.getElem?_set_ne h]

theorem getD_set_self (l : List Nat) (i v d : Nat) (h : i < l.length) :
    (l.set i v).getD i d = v := by
  simp [List.getD_eq_getElem?_getD, List.getElem?_set_self h]

theorem getD_applyWrites_not_mem (ws : List (Nat × Nat)) (buf : List Nat) (j d : Nat)
    (h : ∀ iv ∈ ws, iv.1 ≠ j) :
    (applyWrites buf ws).getD j d = buf.getD j d := by
  induction ws generalizing buf with
  | nil => rfl
  | cons hd tl ih =>
    have step : applyWrites buf (hd :: tl) = applyWrites (buf.set hd.1 hd.2) tl := rfl
    rw [step, ih (buf.set hd.1 hd.2) (fun iv hiv => h iv (List.mem_cons_of_mem _ hiv))]
    exact getD_set_ne buf hd.1 j hd.2 d (h hd (List.mem_cons_self _ _))

theorem getD_applyWrites_mem (ws : List (Nat × Nat)) (buf : List Nat) (j v d : Nat)
    (hmem : (j, v) ∈ ws) (hnodup : (ws.map Prod.fst).Nodup) (hj : j < buf.length) :
    (applyWrites buf ws).getD j d = v := by
  induction ws generalizing buf with
  | nil => cases hmem
  | cons hd tl ih =>
    have step : applyWrites buf (hd :: tl) = applyWrites (buf.set hd.1 hd.2) tl := rfl
    rw [List.map_cons, List.nodup_cons] at hnodup
    rcases List.mem_cons.mp hmem with heq | hmem'
    · subst heq
      rw [step, getD_applyWrites_not_mem tl _ j d ?later]
      · exact getD_set_self buf j v d hj
      · intro iv hiv hcontra
        have hin : iv.1 ∈ tl.map Prod.fst := List.mem_map_of_mem Prod.fst hiv
        rw [hcontra] at hin
        exact hnodup.1 hin
    · rw [step]
      exact ih _ hmem' hnodup.2 (by simpa using hj)

/-- Concatenating per-block index ranges: the index lists produced by the
write loops are exactly an initial segment of the naturals. -/
theorem flatMap_range_blocks (c : Nat) :
    ∀ m : Nat, (List.range m).flatMap (fun k => (List.range c).map (fun r => k * c + r))
      = List.range (m * c) := by
  intro m
  induction m with
  | zero => simp
  | succ n ih =>
    rw [List.range_succ, List.flatMap_append, ih, Nat.succ_mul, List.range_add]
    simp

theorem flatMap_range_blocks_off (c B : Nat) :
    ∀ m : Nat, (List.range m).flatMap (fun k => (List.range c).map (fun r => B + (k * c + r)))
      = (List.range (m * c)).map (fun i => B + i) := by
  intro m
  induction m with
  | zero => simp
  | succ n ih =>
    rw [List.range_succ, List.flatMap_append, ih, Nat.succ_mul, List.range_add]
    simp [List.map_map, Function.comp_def]

theorem row_index_lt (y s i n : Nat) (hy : y < n) (hi : i < s) : y * s + i < n * s := by
  have h2 : (y + 1) * s ≤ n * s := Nat.mul_le_mul_right s hy
  have h3 : (y + 1) * s = y * s + s := by ring
  omega

/- ## The index lists of the three write loops -/

theorem rgbRow_fst (src : List Nat) (pitch w y : Nat) :
    (rgbRowCopyWrites src pitch w y).map Prod.fst
      = (List.range (w * 3)).map (fun i => y * (w * 3) + i) := by
  simp [rgbRowCopyWrites, List.map_map, Function.comp_def]

theorem rgb_fst (src : List Nat) (pitch w h : Nat) :
    (rgbWrites src pitch w h).map Prod.fst = List.range (h * (w * 3)) := by
  unfold rgbWrites
  rw [List.map_flatMap]
  simp only [rgbRow_fst]
  exact flatMap_range_blocks (w * 3) h

theorem yuyvPair_fst (src : List Nat) (pitch w y p : Nat) :
    (yuyvPairWrites src pitch w y p).map Prod.fst
      = (List.range 6).map (fun r => y * (w * 3) + (p * 6 + r)) := by
  have h6 : List.range 6 = [0, 1, 2, 3, 4, 5] := rfl
  rw [h6]
  simp only [yuyvPairWrites, List.map_cons, List.map_nil, List.cons.injEq, and_true]
  omega

theorem yuyv_fst (src : List Nat) (pitch w h : Nat) (hw : w % 2 = 0) :
    (yuyvWrites src pitch w h).map Prod.fst = List.range (h * (w * 3)) := by
  have hm : (w + 1) / 2 * 6 = w * 3 := by omega
  unfold yuyvWrites
  simp only [List.map_flatMap, yuyvPair_fst, flatMap_range_blocks_off 6, hm]
  exact flatMap_range_blocks (w * 3) h

theorem magenta_fst (n : Nat) :
    (magentaWrites n).map Prod.fst = List.range ((n + 2) / 3 * 3) := by
  have hchunk : ∀ k : Nat,
      ([(3 * k, 255), (3 * k + 1, 0), (3 * k + 2, 255)] : List (Nat × Nat)).map Prod.fst
        = (List.range 3).map (fun r => k * 3 + r) := by
    intro k
    have h3 : List.range 3 = [0, 1, 2] := rfl
    rw [h3]
    simp only [List.map_cons, List.map_nil, List.cons.injEq, and_true]
    omega
  unfold magentaWrites
  simp only [List.map_flatMap, hchunk]
  exact flatMap_range_blocks 3 ((n + 2) / 3)

/- ## Branch selection in convertToRGB -/

theorem convertToRGB_rgb888 (ts pitch w h : Nat) (src buf : List Nat) :
    convertToRGB (mkFrame ts pitch w h RGB888 src) buf
      = applyWrites (listResize buf (w * h * 3)) (rgbWrites src pitch w h) := by
  simp [convertToRGB, mkFrame]

theorem convertToRGB_yuyv (ts pitch w h : Nat) (src buf : List Nat) :
    convertToRGB (mkFrame ts pitch w h YUYV src) buf
      = applyWrites (listResize buf (w * h * 3)) (yuyvWrites src pitch w h) := by
  simp [convertToRGB, mkFrame, RGB888, YUYV]

theorem convertToRGB_unknown (ts pitch w h fmt : Nat) (src buf : List Nat)
    (h1 : fmt ≠ RGB888) (h2 : fmt ≠ YUYV) :
    convertToRGB (mkFrame ts pitch w h fmt src) buf
      = applyWrites (listResize buf (w * h * 3)) (magentaWrites (w * h * 3)) := by
  simp [convertToRGB, mkFrame, h1, h2, length_listResize]

/- ## Helper: list equality from pointwise getD -/

theorem eq_of_getD (l l' : List Nat) (hlen : l.length = l'.length)
    (h : ∀ j < l.length, l.getD j 0 = l'.getD j 0) : l = l' := by
  apply List.ext_getElem hlen
  intro i h1 h2
  have hi := h i h1
  simpa [List.getD_eq_getElem?_getD, List.getElem?_eq_getElem, h1, h2] using hi

/- ## Claim theorems for the format converter -/

/-- C1: for a YUYV frame with even width, conversion reads, for each pair of
horizontally adjacent pixels (pair index p, so x = 2p), the 4 consecutive
source bytes Y0,U,Y1,V at row offset x*2, and writes for each luma sample the
RGB triple given by the fixed-point BT.601 transform c = Y-16, d = U-128,
e = V-128, R = clamp((298c+409e+128)>>8,0,255),
G = clamp((298c-100d-208e+128)>>8,0,255), B = clamp((298c+516d+128)>>8,0,255),
sharing d and e across the pixel pair. -/
theorem yuyv_bt601_pixel_pair (ts pitch w h : Nat) (src buf : List Nat) (y p : Nat)
    (hw : w % 2 = 0) (hy : y < h) (hp : 2 * p < w) :
    ((convertToRGB (mkFrame ts pitch w h YUYV src) buf).getD (y * (w * 3) + 2 * p * 3) 0
        = (clamp (asr8 (298 * ((src.getD (y * pitch + 2 * p * 2) 0 : Int) - 16)
            + 409 * ((src.getD (y * pitch + 2 * p * 2 + 3) 0 : Int) - 128) + 128)) 0 255).toNat)
    ∧ ((convertToRGB (mkFrame ts pitch w h YUYV src) buf).getD (y * (w * 3) + 2 * p * 3 + 1) 0
        = (clamp (asr8 (298 * ((src.getD (y * pitch + 2 * p * 2) 0 : Int) - 16)
            - 100 * ((src.getD (y * pitch + 2 * p * 2 + 1) 0 : Int) - 128)
            - 208 * ((src.getD (y * pitch + 2 * p * 2 + 3) 0 : Int) - 128) + 128)) 0 255).toNat)
    ∧ ((convertToRGB (mkFrame ts pitch w h YUYV src) buf).getD (y * (w * 3) + 2 * p * 3 + 2) 0
        = (clamp (asr8 (298 * ((src.getD (y * pitch + 2 * p * 2) 0 : Int) - 16)
            + 516 * ((src.getD (y * pitch + 2 * p * 2 + 1) 0 : Int) - 128) + 128)) 0 255).toNat)
    ∧ ((convertToRGB (mkFrame ts pitch w h YUYV src) buf).getD (y * (w * 3) + (2 * p + 1) * 3) 0
        = (clamp (asr8 (298 * ((src.getD (y * pitch + 2 * p * 2 + 2) 0 : Int) - 16)
            + 409 * ((src.getD (y * pitch + 2 * p * 2 + 3) 0 : Int) - 128) + 128)) 0 255).toNat)
    ∧ ((convertToRGB (mkFrame ts pitch w h YUYV src) buf).getD (y * (w * 3) + (2 * p + 1) * 3 + 1) 0
        = (clamp (asr8 (298 * ((src.getD (y * pitch + 2 * p * 2 + 2) 0 : Int) - 16)
            - 100 * ((src.getD (y * pitch + 2 * p * 2 + 1) 0 : Int) - 128)
            - 208 * ((src.getD (y * pitch + 2 * p * 2 + 3) 0 : Int) - 128) + 128)) 0 255).toNat)
    ∧ ((convertToRGB (mkFrame ts pitch w h YUYV src) buf).getD (y * (w * 3) + (2 * p + 1) * 3 + 2) 0
        = (clamp (asr8 (298 * ((src.getD (y * pitch + 2 * p * 2 + 2) 0 : Int) - 16)
            + 516 * ((src.getD (y * pitch + 2 * p * 2 + 1) 0 : Int) - 128) + 128)) 0 255).toNat) := by
  rw [convertToRGB_yuyv]
  have hlen := length_listResize buf (w * h * 3)
  have hnodup : ((yuyvWrites src pitch w h).map Prod.fst).Nodup := by
    rw [yuyv_fst src pitch w h hw]
    exact List.nodup_range _
  have hwh : h * (w * 3) = w * h * 3 := by ring
  have hmem : ∀ q ∈ yuyvPairWrites src pitch w y p, q ∈ yuyvWrites src pitch w h := by
    intro q hq
    exact List.mem_flatMap.mpr ⟨y, List.mem_range.mpr hy,
      List.mem_flatMap.mpr ⟨p, List.mem_range.mpr (by omega), hq⟩⟩
  refine ⟨?_, ?_, ?_, ?_, ?_, ?_⟩
  · refine getD_applyWrites_mem _ _ _ _ _ (hmem _ ?_) hnodup ?_
    · simp [yuyvPairWrites]
    · rw [hlen]
      have h1 := row_index_lt y (w * 3) (2 * p * 3) h hy (by omega)
      omega
  · refine getD_applyWrites_mem _ _ _ _ _ (hmem _ ?_) hnodup ?_
    · simp [yuyvPairWrites]
    · rw [hlen]
      have h1 := row_index_lt y (w * 3) (2 * p * 3 + 1) h hy (by omega)
      omega
  · refine getD_applyWrites_mem _ _ _ _ _ (hmem _ ?_) hnodup ?_
    · simp [yuyvPairWrites]
    · rw [hlen]
      have h1 := row_index_lt y (w * 3) (2 * p * 3 + 2) h hy (by omega)
      omega
  · refine getD_applyWrites_mem _ _ _ _ _ (hmem _ ?_) hnodup ?_
    · simp [yuyvPairWrites]
    · rw [hlen]
      have h1 := row_index_lt y (w * 3) ((2 * p + 1) * 3) h hy (by omega)
      omega
  · refine getD_applyWrites_mem _ _ _ _ _ (hmem _ ?_) hnodup ?_
    · simp [yuyvPairWrites]
    · rw [hlen]
      have h1 := row_index_lt y (w * 3) ((2 * p + 1) * 3 + 1) h hy (by omega)
      omega
  · refine getD_applyWrites_mem _ _ _ _ _ (hmem _ ?_) hnodup ?_
    · simp [yuyvPairWrites]
    · rw [hlen]
      have h1 := row_index_lt y (w * 3) ((2 * p + 1) * 3 + 2) h hy (by omega)
      omega

/-- Witness for C1: a 2x2 YUYV frame whose first row is the quadruple
Y0=235,U=128,Y1=235,V=128 (pure white) and whose second row is
Y0=16,U=128,Y1=16,V=128 (black): both pixels of row 0 come out (255,255,255)
and both pixels of row 1 come out (0,0,0). -/
theorem yuyv_bt601_pixel_pair_witness :
    2 % 2 = 0
    ∧ (convertToRGB (mkFrame 0 4 2 2 YUYV [235, 128, 235, 128, 16, 128, 16, 128]) []).getD 0 0 = 255
    ∧ (convertToRGB (mkFrame 0 4 2 2 YUYV [235, 128, 235, 128, 16, 128, 16, 128]) []).getD 1 0 = 255
    ∧ (convertToRGB (mkFrame 0 4 2 2 YUYV [235, 128, 235, 128, 16, 128, 16, 128]) []).getD 2 0 = 255
    ∧ (convertToRGB (mkFrame 0 4 2 2 YUYV [235, 128, 235, 128, 16, 128, 16, 128]) []).getD 3 0 = 255
    ∧ (convertToRGB (mkFrame 0 4 2 2 YUYV [235, 128, 235, 128, 16, 128, 16, 128]) []).getD 4 0 = 255
    ∧ (convertToRGB (mkFrame 0 4 2 2 YUYV [235, 128, 235, 128, 16, 128, 16, 128]) []).getD 5 0 = 255
    ∧ (convertToRGB (mkFrame 0 4 2 2 YUYV [235, 128, 235, 128, 16, 128, 16, 128]) []).getD 6 0 = 0
    ∧ (convertToRGB (mkFrame 0 4 2 2 YUYV [235, 128, 235, 128, 16, 128, 16, 128]) []).getD 7 0 = 0
    ∧ (convertToRGB (mkFrame 0 4 2 2 YUYV [235, 128, 235, 128, 16, 128, 16, 128]) []).getD 8 0 = 0
    ∧ (convertToRGB (mkFrame 0 4 2 2 YUYV [235, 128, 235, 128, 16, 128, 16, 128]) []).getD 9 0 = 0
    ∧ (convertToRGB (mkFrame 0 4 2 2 YUYV [235, 128, 235, 128, 16, 128, 16, 128]) []).getD 10 0 = 0
    ∧ (convertToRGB (mkFrame 0 4 2 2 YUYV [235, 128, 235, 128, 16, 128, 16, 128]) []).getD 11 0 = 0 := by
  have hW := yuyv_bt601_pixel_pair 0 4 2 2 [235, 128, 235, 128, 16, 128, 16, 128] [] 0 0
    (by decide) (by decide) (by decide)
  have hB := yuyv_bt601_pixel_pair 0 4 2 2 [235, 128, 235, 128, 16, 128, 16, 128] [] 1 0
    (by decide) (by decide) (by decide)
  exact ⟨by decide,
    hW.1.trans (by decide), hW.2.1.trans (by decide), hW.2.2.1.trans (by decide),
    hW.2.2.2.1.trans (by decide), hW.2.2.2.2.1.trans (by decide), hW.2.2.2.2.2.trans (by decide),
    hB.1.trans (by decide), hB.2.1.trans (by decide), hB.2.2.1.trans (by decide),
    hB.2.2.2.1.trans (by decide), hB.2.2.2.2.1.trans (by decide), hB.2.2.2.2.2.trans (by decide)⟩

/-- C2: for an RGB888 frame, each output row y equals the first width*3 bytes
of the input buffer starting at offset y*pitch (padding bytes are never
copied); when pitch = width*3 the whole output is byte-identical to the first
width*height*3 bytes of the input. -/
theorem rgb888_row_copy (ts pitch w h : Nat) (src buf : List Nat) :
    (∀ y < h, ∀ i < w * 3,
        (convertToRGB (mkFrame ts pitch w h RGB888 src) buf).getD (y * (w * 3) + i) 0
          = src.getD (y * pitch + i) 0)
    ∧ (pitch = w * 3 → w * h * 3 ≤ src.length →
        convertToRGB (mkFrame ts pitch w h RGB888 src) buf = src.take (w * h * 3)) := by
  have hwh : h * (w * 3) = w * h * 3 := by ring
  have hpoint : ∀ y < h, ∀ i < w * 3,
      (convertToRGB (mkFrame ts pitch w h RGB888 src) buf).getD (y * (w * 3) + i) 0
        = src.getD (y * pitch + i) 0 := by
    intro y hy i hi
    rw [convertToRGB_rgb888]
    have hnodup : ((rgbWrites src pitch w h).map Prod.fst).Nodup := by
      rw [rgb_fst]
      exact List.nodup_range _
    refine getD_applyWrites_mem _ _ _ _ _ ?_ hnodup ?_
    · refine List.mem_flatMap.mpr ⟨y, List.mem_range.mpr hy, ?_⟩
      exact List.mem_map.mpr ⟨i, List.mem_range.mpr hi, rfl⟩
    · rw [length_listResize]
      have h1 := row_index_lt y (w * 3) i h hy hi
      omega
  refine ⟨hpoint, ?_⟩
  intro hpitch hslen
  subst hpitch
  have hlen1 : (convertToRGB (mkFrame ts (w * 3) w h RGB888 src) buf).length = w * h * 3 := by
    rw [convertToRGB_rgb888, length_applyWrites, length_listResize]
  apply eq_of_getD
  · rw [hlen1, List.length_take]
    omega
  · rw [hlen1]
    intro j hj
    rcases Nat.eq_zero_or_pos w with hw0 | hwpos
    · subst hw0
      simp at hj
    · have hs : 0 < w * 3 := by omega
      have hdm := Nat.div_add_mod j (w * 3)
      have hylt : j / (w * 3) < h := by
        rw [Nat.div_lt_iff_lt_mul hs]
        omega
      have hmlt : j % (w * 3) < w * 3 := Nat.mod_lt _ hs
      have hpt := hpoint (j / (w * 3)) hylt (j % (w * 3)) hmlt
      have hdm2 : j / (w * 3) * (w * 3) + j % (w * 3) = j := by
        rw [Nat.mul_comm (j / (w * 3)) (w * 3)]
        exact hdm
      rw [hdm2] at hpt
      rw [hpt]
      simp [List.getD_eq_getElem?_getD, List.getElem?_take, hj]

/-- Witness for C2: a 2x2 RGB888 frame with pitch 9 (3 bytes of row padding):
output byte (row 1, offset 2) equals input byte at 1*9+2, skipping the
padding; and with pitch 6 = width*3 the output equals the input verbatim. -/
theorem rgb888_row_copy_witness :
    1 < 2 ∧ 2 < 2 * 3
    ∧ (convertToRGB
        (mkFrame 0 9 2 2 RGB888 [1, 2, 3, 4, 5, 6, 101, 102, 103, 11, 12, 13, 14, 15, 16, 104, 105, 106])
        []).getD (1 * (2 * 3) + 2) 0
      = ([1, 2, 3, 4, 5, 6, 101, 102, 103, 11, 12, 13, 14, 15, 16, 104, 105, 106] : List Nat).getD (1 * 9 + 2) 0
    ∧ convertToRGB (mkFrame 0 6 2 2 RGB888 [1, 2, 3, 4, 5, 6, 7, 8, 9, 10, 11, 12]) []
      = ([1, 2, 3, 4, 5, 6, 7, 8, 9, 10, 11, 12] : List Nat).take (2 * 2 * 3) := by
  refine ⟨by decide, by decide, ?_, ?_⟩
  · exact (rgb888_row_copy 0 9 2 2
      [1, 2, 3, 4, 5, 6, 101, 102, 103, 11, 12, 13, 14, 15, 16, 104, 105, 106] []).1
      1 (by decide) 2 (by decide)
  · exact (rgb888_row_copy 0 6 2 2 [1, 2, 3, 4, 5, 6, 7, 8, 9, 10, 11, 12] []).2
      (by decide) (by decide)

/-- C3: for a frame whose format tag is neither RGB888 nor YUYV, conversion
fills the whole width*height*3 output with the repeating pixel (255,0,255),
emits a warning diagnostic carrying the tag, and completes normally (it is a
total function producing a buffer of the exact expected length). -/
theorem unknown_format_magenta (ts pitch w h fmt : Nat) (src buf : List Nat)
    (h1 : fmt ≠ RGB888) (h2 : fmt ≠ YUYV) :
    (convertToRGB (mkFrame ts pitch w h fmt src) buf).length = w * h * 3
    ∧ (∀ j < w * h * 3,
        (convertToRGB (mkFrame ts pitch w h fmt src) buf).getD j 0
          = if j % 3 = 1 then 0 else 255)
    ∧ convertDiagnostics (mkFrame ts pitch w h fmt src) = [fmt] := by
  rw [convertToRGB_unknown ts pitch w h fmt src buf h1 h2]
  refine ⟨by rw [length_applyWrites, length_listResize], ?_, ?_⟩
  · intro j hj
    have hnodup : ((magentaWrites (w * h * 3)).map Prod.fst).Nodup := by
      rw [magenta_fst]
      exact List.nodup_range _
    refine getD_applyWrites_mem _ _ _ _ _ ?_ hnodup ?_
    · obtain ⟨k, r, hkr, hrlt⟩ : ∃ k r, j = 3 * k + r ∧ r < 3 :=
        ⟨j / 3, j % 3, by omega, by omega⟩
      subst hkr
      refine List.mem_flatMap.mpr ⟨k, List.mem_range.mpr (by omega), ?_⟩
      interval_cases r
      · rw [if_neg (by omega)]
        simp
      · rw [if_pos (by omega)]
        simp
      · rw [if_neg (by omega)]
        simp
    · rw [length_listResize]
      exact hj
  · simp [convertDiagnostics, mkFrame, h1, h2]

/-- Witness for C3: a 2x1 frame with the unrecognized tag 0 yields the
six-byte magenta pattern and a diagnostic carrying the tag. -/
theorem unknown_format_magenta_witness :
    (0 : Nat) ≠ RGB888 ∧ (0 : Nat) ≠ YUYV
    ∧ ((convertToRGB (mkFrame 0 0 2 1 0 []) []).length = 2 * 1 * 3
      ∧ (∀ j < 2 * 1 * 3,
          (convertToRGB (mkFrame 0 0 2 1 0 []) []).getD j 0
            = if j % 3 = 1 then 0 else 255)
      ∧ convertDiagnostics (mkFrame 0 0 2 1 0 []) = [0]) := by
  refine ⟨by decide, by decide, ?_⟩
  exact unknown_format_magenta 0 0 2 1 0 [] [] (by decide) (by decide)

/-- C4 counterexample: the frozen claim asserts that for all dimensions up
to 65535 conversion has no side effect other than writing into the
caller-supplied buffer; but for a 1x1 frame (well inside that bound) with an
unrecognized encoding tag, conversion additionally emits a warning
diagnostic on stderr (here the diagnostics channel carrying the tag is
nonempty), refuting the no-other-side-effect conjunct. -/
theorem convert_no_side_effect_counterexample :
    (1 : Nat) ≤ 65535 ∧ convertDiagnostics (mkFrame 0 0 1 1 0 []) ≠ [] :=
  ⟨by decide, by decide⟩

/-- C4 (amended): for every frame header whose width*height*3 fits in a
signed 32-bit int (the C++ computes that size expression in int, so
dimensions near the top of the uint16 range overflow it and lie outside the
guarantee), conversion resizes the caller-supplied buffer to exactly
width*height*3 bytes before writing and the final output has exactly that
length, for every format tag and prior buffer content; and beyond the
returned buffer its only effect is the warning diagnostic, which is empty
for the two recognized tags. -/
theorem convert_resize_exact (ts pitch w h fmt : Nat) (src buf : List Nat)
    (hint : w * h * 3 ≤ 2147483647) :
    (convertToRGB (mkFrame ts pitch w h fmt src) buf).length = w * h * 3
    ∧ (listResize buf (w * h * 3)).length = w * h * 3
    ∧ (fmt = RGB888 ∨ fmt = YUYV →
        convertDiagnostics (mkFrame ts pitch w h fmt src) = []) := by
  refine ⟨?_, length_listResize buf (w * h * 3), ?_⟩
  · by_cases hf1 : fmt = RGB888
    · subst hf1
      rw [convertToRGB_rgb888, length_applyWrites, length_listResize]
    · by_cases hf2 : fmt = YUYV
      · subst hf2
        rw [convertToRGB_yuyv, length_applyWrites, length_listResize]
      · rw [convertToRGB_unknown ts pitch w h fmt src buf hf1 hf2,
          length_applyWrites, length_listResize]
  · intro hrec
    rcases hrec with hf | hf <;> subst hf <;>
      simp [convertDiagnostics, mkFrame, RGB888, YUYV]

/-- Witness for C4 (amended): a 2x2 RGB888 frame whose size fits a 32-bit
int; both length conjuncts hold and no diagnostic is emitted. -/
theorem convert_resize_exact_witness :
    2 * 2 * 3 ≤ 2147483647
    ∧ ((convertToRGB (mkFrame 0 6 2 2 RGB888 [1, 2, 3, 4, 5, 6, 7, 8, 9, 10, 11, 12]) []).length
          = 2 * 2 * 3
      ∧ (listResize [] (2 * 2 * 3)).length = 2 * 2 * 3
      ∧ (RGB888 = RGB888 ∨ RGB888 = YUYV →
          convertDiagnostics (mkFrame 0 6 2 2 RGB888 [1, 2, 3, 4, 5, 6, 7, 8, 9, 10, 11, 12]) = [])) :=
  ⟨by decide, convert_resize_exact 0 6 2 2 RGB888 [1, 2, 3, 4, 5, 6, 7, 8, 9, 10, 11, 12] []
    (by decide)⟩

/-- C10: for a YUYV frame with even width, pitch at least 2*width and a pixel
buffer of at least pitch*height bytes, every source offset read by the
conversion loop is inside the pixel buffer and every destination index
written is inside the width*height*3 output buffer. -/
theorem yuyv_memory_safety (pitch w h : Nat) (src : List Nat)
    (hw : w % 2 = 0) (hpitch : 2 * w ≤ pitch) (hlen : pitch * h ≤ src.length) :
    (∀ i ∈ yuyvReadOffsets pitch w h, i < src.length)
    ∧ (∀ j ∈ (yuyvWrites src pitch w h).map Prod.fst, j < w * h * 3) := by
  constructor
  · intro i hi
    simp only [yuyvReadOffsets, List.mem_flatMap, List.mem_range, List.mem_cons,
      List.not_mem_nil, or_false] at hi
    obtain ⟨y, hy, p, hp, hmem4⟩ := hi
    have hb : 2 * p * 2 + 3 < pitch := by omega
    have hrow := row_index_lt y pitch (2 * p * 2 + 3) h hy hb
    have hc : h * pitch = pitch * h := by ring
    rcases hmem4 with h4 | h4 | h4 | h4 <;> omega
  · intro j hj
    rw [yuyv_fst src pitch w h hw] at hj
    have hwh : h * (w * 3) = w * h * 3 := by ring
    have := List.mem_range.mp hj
    omega

/-- Witness for C10: a 2x1 YUYV frame with pitch 4 over a 4-byte buffer. -/
theorem yuyv_memory_safety_witness :
    2 % 2 = 0 ∧ 2 * 2 ≤ 4 ∧ 4 * 1 ≤ ([1, 2, 3, 4] : List Nat).length
    ∧ ((∀ i ∈ yuyvReadOffsets 4 2 1, i < ([1, 2, 3, 4] : List Nat).length)
      ∧ (∀ j ∈ (yuyvWrites [1, 2, 3, 4] 4 2 1).map Prod.fst, j < 2 * 1 * 3)) := by
  refine ⟨by decide, by decide, by decide, ?_⟩
  exact yuyv_memory_safety 4 2 1 [1, 2, 3, 4] (by decide) (by decide) (by decide)

/- ## Display state model (Display::Impl) -/

/-- Quad vertex data: 4 vertices x (2D position, 2D texture coordinate),
16 floats (display.cpp lines 308-314). -/
def quadVertices (quad_width quad_height : ℚ) : List ℚ :=
  [-quad_width, quad_height, 0, 0,
   -quad_width, -quad_height, 0, 1,
   quad_width, -quad_height, 1, 1,
   quad_width, quad_height, 1, 0]

/-- The letterbox half-extents (display.cpp lines 299-306): both start at 1;
if the window is wider than the image the width is shrunk, otherwise the
height is shrunk. Modelled over exact rationals. -/
def letterboxHalfExtents (window_aspect image_aspect_ratio : ℚ) : ℚ × ℚ :=
  if window_aspect > image_aspect_ratio then (image_aspect_ratio / window_aspect, 1)
  else (1, window_aspect / image_aspect_ratio)

/-- Mutable display state (struct Display::Impl, display.cpp lines 93-113),
extended with an explicit draw-call log and a diagnostics log so render
passes and warnings are observable. The framebuffer size reported by
glfwGetFramebufferSize is an input of each render pass. -/
structure ImplState where
  current_frame_header : Header
  rgb_buffer : List Nat
  image_aspect_ratio : ℚ
  vbo_data : List ℚ
  texture_data : List Nat
  texture_size : ImageSize
  draw_calls : List ((Nat × Nat) × List ℚ)
  diagnostics : List Nat

/-- Display::Impl::updateQuadForLetterbox (display.cpp lines 286-320):
return without writing when the framebuffer is zero-sized, otherwise
recompute the letterbox quad and rewrite the VBO contents in place. -/
def updateQuadForLetterbox (window_width window_height : Nat) (s : ImplState) : ImplState :=
  if window_width = 0 ∨ window_height = 0 then s
  else
    let window_aspect : ℚ := (window_width : ℚ) / (window_height : ℚ)
    let q := letterboxHalfExtents window_aspect s.image_aspect_ratio
    { s with vbo_data := quadVertices q.1 q.2 }

/-- Display::Impl::render (display.cpp lines 323-344): set the viewport to
the framebuffer size, clear, recompute the letterbox quad, then issue the
4-vertex draw using the current VBO contents, and present. -/
def render (window_width window_height : Nat) (s : ImplState) : ImplState :=
  let s1 := updateQuadForLetterbox window_width window_height s
  { s1 with draw_calls := s1.draw_calls ++ [((window_width, window_height), s1.vbo_data)] }

/-- Display::update (display.cpp lines 383-395): convert the frame, upload
the texture, update the stored aspect ratio if the frame size is
non-degenerate, record the frame header as current, render. -/
def update (window_width window_height : Nat) (frame : ImageFrame) (s : ImplState) : ImplState :=
  let rgb := convertToRGB frame s.rgb_buffer
  let s1 := { s with rgb_buffer := rgb,
                     diagnostics := s.diagnostics ++ convertDiagnostics frame,
                     texture_data := rgb,
                     texture_size := frame.header.size }
  let s2 := if 0 < frame.header.size.width ∧ 0 < frame.header.size.height then
      { s1 with image_aspect_ratio :=
          (frame.header.size.width : ℚ) / (frame.header.size.height : ℚ) }
    else s1
  let s3 := { s2 with current_frame_header := frame.header }
  render window_width window_height s3

/-- The initial Impl state: member initializers (display.cpp lines 93-103)
and the initial full-screen quad written by setupQuad (lines 225-231). -/
def initImplState : ImplState :=
  { current_frame_header := ⟨0, 0, ⟨0, 0⟩, 0⟩
    rgb_buffer := []
    image_aspect_ratio := 1
    vbo_data := quadVertices 1 1
    texture_data := []
    texture_size := ⟨0, 0⟩
    draw_calls := []
    diagnostics := [] }

theorem updateQuad_image_aspect (fw fh : Nat) (s : ImplState) :
    (updateQuadForLetterbox fw fh s).image_aspect_ratio = s.image_aspect_ratio := by
  unfold updateQuadForLetterbox
  split <;> rfl

theorem updateQuad_header (fw fh : Nat) (s : ImplState) :
    (updateQuadForLetterbox fw fh s).current_frame_header = s.current_frame_header := by
  unfold updateQuadForLetterbox
  split <;> rfl

theorem updateQuad_draws (fw fh : Nat) (s : ImplState) :
    (updateQuadForLetterbox fw fh s).draw_calls = s.draw_calls := by
  unfold updateQuadForLetterbox
  split <;> rfl

theorem updateQuad_diagnostics (fw fh : Nat) (s : ImplState) :
    (updateQuadForLetterbox fw fh s).diagnostics = s.diagnostics := by
  unfold updateQuadForLetterbox
  split <;> rfl

/- ## Teardown model (Display::Impl::cleanup) -/

/-- GPU/window handles owned by the display (Display::Impl fields,
display.cpp lines 94-101), each zero/null until allocated. -/
structure GLHandles where
  texture_id : Nat
  vao : Nat
  vbo : Nat
  shader_program : Nat
  window : Option Nat

/-- The release operations teardown can invoke (display.cpp lines 347-369). -/
inductive ReleaseOp where
  | deleteTexture (id : Nat)
  | deleteVertexArray (id : Nat)
  | deleteBuffer (id : Nat)
  | deleteProgram (id : Nat)
  | destroyWindow (w : Nat)
  | glfwTerminate
deriving DecidableEq

/-- The sequence of release operations performed by Display::Impl::cleanup
(display.cpp lines 347-369): each handle is released only when
nonzero/non-null, then GLFW is terminated unconditionally. -/
def cleanupOps (s : GLHandles) : List ReleaseOp :=
  (if s.texture_id ≠ 0 then [ReleaseOp.deleteTexture s.texture_id] else [])
    ++ (if s.vao ≠ 0 then [ReleaseOp.deleteVertexArray s.vao] else [])
    ++ (if s.vbo ≠ 0 then [ReleaseOp.deleteBuffer s.vbo] else [])
    ++ (if s.shader_program ≠ 0 then [ReleaseOp.deleteProgram s.shader_program] else [])
    ++ (match s.window with
        | some w => [ReleaseOp.destroyWindow w]
        | none => [])
    ++ [ReleaseOp.glfwTerminate]

/-- Display::Impl::cleanup: every released handle is zeroed right after its
release, so the state left behind is the all-zero state. -/
def cleanup (s : GLHandles) : GLHandles × List ReleaseOp :=
  (⟨0, 0, 0, 0, none⟩, cleanupOps s)

theorem mem_guard {α : Type} (c : Prop) [Decidable c] (x y : α) :
    (x ∈ if c then [y] else ([] : List α)) ↔ c ∧ x = y := by
  split <;> simp_all

/- ## Claim theorems for the letterbox geometry, orchestration and teardown -/

/-- C5: for every positive surface width/height and positive image aspect
ratio, the letterbox half-extents (qw, qh) satisfy 0 < qw ≤ 1, 0 < qh ≤ 1,
qw/qh = imageAspectRatio/surfaceAspect, and exactly one of qw, qh equals 1
unless the two aspect ratios are identical, in which case both equal 1
(stated over exact rational arithmetic). -/
theorem letterbox_invariant (ww wh : Nat) (ia : ℚ) (hww : 0 < ww) (hwh : 0 < wh)
    (hia : 0 < ia) :
    0 < (letterboxHalfExtents ((ww : ℚ) / (wh : ℚ)) ia).1
    ∧ (letterboxHalfExtents ((ww : ℚ) / (wh : ℚ)) ia).1 ≤ 1
    ∧ 0 < (letterboxHalfExtents ((ww : ℚ) / (wh : ℚ)) ia).2
    ∧ (letterboxHalfExtents ((ww : ℚ) / (wh : ℚ)) ia).2 ≤ 1
    ∧ (letterboxHalfExtents ((ww : ℚ) / (wh : ℚ)) ia).1
        / (letterboxHalfExtents ((ww : ℚ) / (wh : ℚ)) ia).2 = ia / ((ww : ℚ) / (wh : ℚ))
    ∧ ((ww : ℚ) / (wh : ℚ) = ia →
        (letterboxHalfExtents ((ww : ℚ) / (wh : ℚ)) ia).1 = 1
          ∧ (letterboxHalfExtents ((ww : ℚ) / (wh : ℚ)) ia).2 = 1)
    ∧ ((ww : ℚ) / (wh : ℚ) ≠ ia →
        ((letterboxHalfExtents ((ww : ℚ) / (wh : ℚ)) ia).1 = 1
            ∧ (letterboxHalfExtents ((ww : ℚ) / (wh : ℚ)) ia).2 ≠ 1)
          ∨ ((letterboxHalfExtents ((ww : ℚ) / (wh : ℚ)) ia).1 ≠ 1
            ∧ (letterboxHalfExtents ((ww : ℚ) / (wh : ℚ)) ia).2 = 1)) := by
  have hwa : 0 < (ww : ℚ) / (wh : ℚ) := by
    apply div_pos
    · exact_mod_cast hww
    · exact_mod_cast hwh
  by_cases hcmp : ia < (ww : ℚ) / (wh : ℚ)
  · simp only [letterboxHalfExtents, gt_iff_lt, if_pos hcmp]
    refine ⟨div_pos hia hwa, (div_le_one hwa).mpr (le_of_lt hcmp), by norm_num, le_refl 1,
      by rw [div_one], ?_, ?_⟩
    · intro heq
      exact absurd hcmp (by rw [heq]; exact lt_irrefl ia)
    · intro hne
      refine Or.inr ⟨?_, by trivial⟩
      intro hone
      exact absurd ((div_eq_one_iff_eq (ne_of_gt hwa)).mp hone) (ne_of_lt hcmp)
  · simp only [letterboxHalfExtents, gt_iff_lt, if_neg hcmp]
    have hle : (ww : ℚ) / (wh : ℚ) ≤ ia := not_lt.mp hcmp
    refine ⟨by norm_num, le_refl 1, div_pos hwa hia, (div_le_one hia).mpr hle,
      by rw [one_div_div], ?_, ?_⟩
    · intro heq
      exact ⟨by trivial, by rw [heq]; exact div_self (ne_of_gt hia)⟩
    · intro hne
      refine Or.inl ⟨by trivial, ?_⟩
      intro hone
      exact hne ((div_eq_one_iff_eq (ne_of_gt hia)).mp hone)

/-- Witness for C5: a 16:9 surface with a 4:3 image. -/
theorem letterbox_invariant_witness :
    0 < 16 ∧ 0 < 9 ∧ 0 < (4 / 3 : ℚ)
    ∧ (0 < (letterboxHalfExtents ((16 : ℚ) / (9 : ℚ)) (4 / 3)).1
      ∧ (letterboxHalfExtents ((16 : ℚ) / (9 : ℚ)) (4 / 3)).1 ≤ 1
      ∧ 0 < (letterboxHalfExtents ((16 : ℚ) / (9 : ℚ)) (4 / 3)).2
      ∧ (letterboxHalfExtents ((16 : ℚ) / (9 : ℚ)) (4 / 3)).2 ≤ 1
      ∧ (letterboxHalfExtents ((16 : ℚ) / (9 : ℚ)) (4 / 3)).1
          / (letterboxHalfExtents ((16 : ℚ) / (9 : ℚ)) (4 / 3)).2 = (4 / 3) / ((16 : ℚ) / (9 : ℚ))
      ∧ ((16 : ℚ) / (9 : ℚ) = 4 / 3 →
          (letterboxHalfExtents ((16 : ℚ) / (9 : ℚ)) (4 / 3)).1 = 1
            ∧ (letterboxHalfExtents ((16 : ℚ) / (9 : ℚ)) (4 / 3)).2 = 1)
      ∧ ((16 : ℚ) / (9 : ℚ) ≠ 4 / 3 →
          ((letterboxHalfExtents ((16 : ℚ) / (9 : ℚ)) (4 / 3)).1 = 1
              ∧ (letterboxHalfExtents ((16 : ℚ) / (9 : ℚ)) (4 / 3)).2 ≠ 1)
            ∨ ((letterboxHalfExtents ((16 : ℚ) / (9 : ℚ)) (4 / 3)).1 ≠ 1
              ∧ (letterboxHalfExtents ((16 : ℚ) / (9 : ℚ)) (4 / 3)).2 = 1))) := by
  refine ⟨by norm_num, by norm_num, by norm_num, ?_⟩
  exact letterbox_invariant 16 9 (4 / 3) (by norm_num) (by norm_num) (by norm_num)

/-- C6: after update with a frame of nonzero dimensions, the stored image
aspect ratio equals width/height; a zero-width or zero-height frame leaves
the stored aspect ratio unchanged; in all cases the frame's header is
recorded as current and exactly one render pass is performed. -/
theorem update_aspect_and_header (fw fh : Nat) (frame : ImageFrame) (s : ImplState) :
    ((update fw fh frame s).image_aspect_ratio =
      if 0 < frame.header.size.width ∧ 0 < frame.header.size.height
      then (frame.header.size.width : ℚ) / (frame.header.size.height : ℚ)
      else s.image_aspect_ratio)
    ∧ (update fw fh frame s).current_frame_header = frame.header
    ∧ (update fw fh frame s).draw_calls.length = s.draw_calls.length + 1 := by
  by_cases hde : 0 < frame.header.size.width ∧ 0 < frame.header.size.height
  · simp [update, render, hde, updateQuad_image_aspect, updateQuad_header, updateQuad_draws]
  · simp [update, render, hde, updateQuad_image_aspect, updateQuad_header, updateQuad_draws]

/-- C9: the geometry recomputation is deterministic in the framebuffer size
and the stored aspect ratio: a second call in a row with the same inputs
leaves the 16-float vertex data identical to what the first call wrote. -/
theorem updateQuad_deterministic (fw fh : Nat) (s : ImplState) :
    (updateQuadForLetterbox fw fh (updateQuadForLetterbox fw fh s)).vbo_data
      = (updateQuadForLetterbox fw fh s).vbo_data := by
  by_cases hz : fw = 0 ∨ fh = 0 <;> simp [updateQuadForLetterbox, hz]

/-- C7 counterexample: with a zero-sized framebuffer the render pass does not
skip its draw call: starting from the initial state (empty draw log), one
draw command is still issued. -/
theorem render_zero_framebuffer_draws :
    (render 0 0 initImplState).draw_calls ≠ initImplState.draw_calls := by
  simp [render, updateQuadForLetterbox, initImplState]

/-- C7 (amended): when the framebuffer reports zero width or height, the
geometry recomputation returns without writing (the quad geometry retains
its previous value) and no diagnostic is emitted; the render pass still
issues its draw call, against the zero-area viewport, rather than erroring;
and the next pass with nonzero framebuffer size recomputes the letterbox
geometry normally. -/
theorem zero_framebuffer_skips_geometry (fw fh : Nat) (s : ImplState)
    (hfb : fw = 0 ∨ fh = 0) :
    updateQuadForLetterbox fw fh s = s
    ∧ (render fw fh s).vbo_data = s.vbo_data
    ∧ (render fw fh s).diagnostics = s.diagnostics
    ∧ (render fw fh s).draw_calls = s.draw_calls ++ [((fw, fh), s.vbo_data)]
    ∧ (∀ fw2 fh2 : Nat, 0 < fw2 → 0 < fh2 →
        (updateQuadForLetterbox fw2 fh2 s).vbo_data
          = quadVertices (letterboxHalfExtents ((fw2 : ℚ) / (fh2 : ℚ)) s.image_aspect_ratio).1
              (letterboxHalfExtents ((fw2 : ℚ) / (fh2 : ℚ)) s.image_aspect_ratio).2) := by
  have hq : updateQuadForLetterbox fw fh s = s := by
    unfold updateQuadForLetterbox
    rw [if_pos hfb]
  refine ⟨hq, by simp [render, hq], by simp [render, hq], by simp [render, hq], ?_⟩
  intro fw2 fh2 h2 h3
  unfold updateQuadForLetterbox
  rw [if_neg (by omega)]

/-- Witness for C7: framebuffer (0, 5) from the initial state. -/
theorem zero_framebuffer_skips_geometry_witness :
    ((0 : Nat) = 0 ∨ (5 : Nat) = 0)
    ∧ (updateQuadForLetterbox 0 5 initImplState = initImplState
      ∧ (render 0 5 initImplState).vbo_data = initImplState.vbo_data
      ∧ (render 0 5 initImplState).diagnostics = initImplState.diagnostics
      ∧ (render 0 5 initImplState).draw_calls
          = initImplState.draw_calls ++ [((0, 5), initImplState.vbo_data)]
      ∧ (∀ fw2 fh2 : Nat, 0 < fw2 → 0 < fh2 →
          (updateQuadForLetterbox fw2 fh2 initImplState).vbo_data
            = quadVertices
                (letterboxHalfExtents ((fw2 : ℚ) / (fh2 : ℚ)) initImplState.image_aspect_ratio).1
                (letterboxHalfExtents ((fw2 : ℚ) / (fh2 : ℚ)) initImplState.image_aspect_ratio).2)) :=
  ⟨Or.inl rfl, zero_framebuffer_skips_geometry 0 5 initImplState (Or.inl rfl)⟩

/-- C8: teardown invokes a release operation only on handles that are
nonzero/non-null, leaves every handle zeroed, and is idempotent: a second
teardown from the state it leaves behind performs no handle release (only
the unconditional GLFW terminate call remains). -/
theorem cleanup_idempotent (s : GLHandles) :
    (s.texture_id = 0 → ∀ i, ReleaseOp.deleteTexture i ∉ cleanupOps s)
    ∧ (s.vao = 0 → ∀ i, ReleaseOp.deleteVertexArray i ∉ cleanupOps s)
    ∧ (s.vbo = 0 → ∀ i, ReleaseOp.deleteBuffer i ∉ cleanupOps s)
    ∧ (s.shader_program = 0 → ∀ i, ReleaseOp.deleteProgram i ∉ cleanupOps s)
    ∧ (s.window = none → ∀ i, ReleaseOp.destroyWindow i ∉ cleanupOps s)
    ∧ (cleanup s).1 = ⟨0, 0, 0, 0, none⟩
    ∧ cleanupOps (cleanup s).1 = [ReleaseOp.glfwTerminate] := by
  obtain ⟨t, a, b, p, w⟩ := s
  have hlast : cleanupOps (⟨0, 0, 0, 0, none⟩ : GLHandles) = [ReleaseOp.glfwTerminate] := by
    decide
  refine ⟨?_, ?_, ?_, ?_, ?_, rfl, hlast⟩ <;>
    (intro h i hmem; cases w <;> simp_all [cleanupOps, mem_guard])

/-- Witness for C8: a partially constructed instance where only the vertex
array and vertex buffer were allocated. -/
theorem cleanup_idempotent_witness :
    ((0 : Nat) = 0 → ∀ i, ReleaseOp.deleteTexture i ∉ cleanupOps ⟨0, 5, 7, 0, none⟩)
    ∧ ((5 : Nat) = 0 → ∀ i, ReleaseOp.deleteVertexArray i ∉ cleanupOps ⟨0, 5, 7, 0, none⟩)
    ∧ ((7 : Nat) = 0 → ∀ i, ReleaseOp.deleteBuffer i ∉ cleanupOps ⟨0, 5, 7, 0, none⟩)
    ∧ ((0 : Nat) = 0 → ∀ i, ReleaseOp.deleteProgram i ∉ cleanupOps ⟨0, 5, 7, 0, none⟩)
    ∧ ((none : Option Nat) = none → ∀ i, ReleaseOp.destroyWindow i ∉ cleanupOps ⟨0, 5, 7, 0, none⟩)
    ∧ (cleanup ⟨0, 5, 7, 0, none⟩).1 = ⟨0, 0, 0, 0, none⟩
    ∧ cleanupOps (cleanup ⟨0, 5, 7, 0, none⟩).1 = [ReleaseOp.glfwTerminate] :=
  cleanup_idempotent ⟨0, 5, 7, 0, none⟩

end Picam
